import Mathlib

/-!
Verification of the finrecorder holdings-ledger engine.

The definitions below are a shallow embedding of the TypeScript source:

* `updateHoldings` embeds `updateHoldings` from
  `src/app/api/transactions/route.ts` (the holding-state arithmetic; the
  database row lookup/update plumbing is modelled by passing the existing
  holding row in and returning the new row, `none` meaning "no row").
* `applyHoldingEffect` and `reverseHoldingEffect` embed the functions of the
  same names from `src/app/api/transactions/[id]/route.ts`.

JavaScript numbers are modelled as exact rationals (ℚ); share quantities are
integers (ℤ) as in the database schema.  `Math.max(0, x)` becomes `max 0 x`,
`Math.round` becomes `jsRound` (round half toward positive infinity, the
JavaScript semantics for the non-negative amounts that occur here).
-/

namespace FinRecorder

/-- Trade side, the `type` column: `'BUY' | 'SELL'`. -/
inductive TradeType where
  | BUY
  | SELL
deriving DecidableEq, Repr

/-- Stock market, the `market` column: `'TW' | 'US'`. -/
inductive Market where
  | TW
  | US
deriving DecidableEq, Repr

/-- One `holdings` row for a fixed (user, stock) pair: `quantity` (integer
share count), `averageCost` and `totalCost` (decimals, modelled exactly as
rationals).  The user/stock keys and currency tag do not enter the arithmetic
and are omitted. -/
@[ext]
structure Holding where
  quantity : ℤ
  averageCost : ℚ
  totalCost : ℚ
deriving DecidableEq, Repr

/-- JavaScript `Math.round`: round half toward positive infinity. -/
def jsRound (x : ℚ) : ℤ := ⌊x + 1 / 2⌋

/-- Embeds `updateHoldings` from `src/app/api/transactions/route.ts`
(lines 153–212): the new holding row produced by a trade, `none` meaning the
row is deleted / absent.  BUY onto an existing row adds `quantity * price` to
`totalCost` and recomputes `averageCost`; BUY with no row inserts a fresh row;
SELL deletes the row when `newQuantity <= 0` and otherwise keeps `averageCost`
and sets `totalCost = newQuantity * averageCost`; SELL with no row does
nothing. -/
def updateHoldings (existingHolding : Option Holding) (type : TradeType)
    (quantity : ℤ) (price : ℚ) : Option Holding :=
  match type, existingHolding with
  | .BUY, some h =>
    let newQuantity := h.quantity + quantity
    let newTotalCost := h.totalCost + (quantity : ℚ) * price
    let newAverageCost := newTotalCost / (newQuantity : ℚ)
    some { quantity := newQuantity, averageCost := newAverageCost,
           totalCost := newTotalCost }
  | .BUY, none =>
    some { quantity := quantity, averageCost := price,
           totalCost := (quantity : ℚ) * price }
  | .SELL, some h =>
    let newQuantity := h.quantity - quantity
    if newQuantity ≤ 0 then
      none
    else
      some { quantity := newQuantity, averageCost := h.averageCost,
             totalCost := (newQuantity : ℚ) * h.averageCost }
  | .SELL, none => none

/-- Embeds `applyHoldingEffect` from `src/app/api/transactions/[id]/route.ts`
(lines 289–346).  Its holding arithmetic coincides line for line with
`updateHoldings` of `route.ts`; it is kept as its own definition to mirror the
source. -/
def applyHoldingEffect (existingHolding : Option Holding) (type : TradeType)
    (quantity : ℤ) (price : ℚ) : Option Holding :=
  match type, existingHolding with
  | .BUY, some h =>
    let newQuantity := h.quantity + quantity
    let newTotalCost := h.totalCost + (quantity : ℚ) * price
    let newAverageCost := newTotalCost / (newQuantity : ℚ)
    some { quantity := newQuantity, averageCost := newAverageCost,
           totalCost := newTotalCost }
  | .BUY, none =>
    some { quantity := quantity, averageCost := price,
           totalCost := (quantity : ℚ) * price }
  | .SELL, some h =>
    let newQuantity := h.quantity - quantity
    if newQuantity ≤ 0 then
      none
    else
      some { quantity := newQuantity, averageCost := h.averageCost,
             totalCost := (newQuantity : ℚ) * h.averageCost }
  | .SELL, none => none

/-- Embeds `reverseHoldingEffect` from
`src/app/api/transactions/[id]/route.ts` (lines 228–286).  Reversing a BUY
subtracts `quantity * price` from `totalCost`, recomputes `averageCost`, and
clamps both at zero (`Math.max(0, ...)`); the row is deleted when the new
quantity is `<= 0`, and an absent row stays absent.  Reversing a SELL adds the
quantity and `quantity * price` back to `totalCost` without touching
`averageCost`, or inserts a fresh row when none exists. -/
def reverseHoldingEffect (existingHolding : Option Holding) (type : TradeType)
    (quantity : ℤ) (price : ℚ) : Option Holding :=
  match type, existingHolding with
  | .BUY, some h =>
    let newQuantity := h.quantity - quantity
    if newQuantity ≤ 0 then
      none
    else
      let newTotalCost := h.totalCost - (quantity : ℚ) * price
      let newAverageCost := newTotalCost / (newQuantity : ℚ)
      some { quantity := newQuantity, averageCost := max 0 newAverageCost,
             totalCost := max 0 newTotalCost }
  | .BUY, none => none
  | .SELL, some h =>
    some { quantity := h.quantity + quantity, averageCost := h.averageCost,
           totalCost := h.totalCost + (quantity : ℚ) * price }
  | .SELL, none =>
    some { quantity := quantity, averageCost := price,
           totalCost := (quantity : ℚ) * price }

/-- The data-model invariant of a holding row: `totalCost = averageCost *
quantity`. -/
def holdingInvariant (h : Holding) : Prop :=
  h.totalCost = h.averageCost * (h.quantity : ℚ)

instance (h : Holding) : Decidable (holdingInvariant h) :=
  decidable_of_iff (h.totalCost = h.averageCost * (h.quantity : ℚ)) Iff.rfl

/-- The invariant lifted to an optional row: an absent row satisfies it. -/
def holdingInvariantO : Option Holding → Prop
  | none => True
  | some h => holdingInvariant h

instance (o : Option Holding) : Decidable (holdingInvariantO o) := by
  cases o with
  | none => exact .isTrue trivial
  | some h => exact inferInstanceAs (Decidable (holdingInvariant h))

/-- JavaScript falsiness of an optional numeric input: `!x` is true when the
field is absent (`undefined`/`null`) or equal to `0`.  This models the
`!data.brokerFee` / `!data.tax` tests of `POST /api/transactions`
(route.ts lines 95, 100) and of `PUT /api/transactions/[id]`
(`[id]/route.ts` lines 106, 111), which test falsiness rather than
presence. -/
def jsFalsy : Option ℚ → Prop
  | none => True
  | some v => v = 0

instance (x : Option ℚ) : Decidable (jsFalsy x) := by
  cases x with
  | none => exact .isTrue trivial
  | some v => exact inferInstanceAs (Decidable (v = 0))

/-- Embeds the broker-fee computation of `POST /api/transactions`
(route.ts lines 91–99; the identical lines appear in `PUT` at
`[id]/route.ts` lines 102–110): `brokerFee = data.brokerFee ?? 0`, and for a
TW-market trade with a falsy input it is replaced by
`Math.max(Math.round(grossAmount * 0.001425), 20)`.  The decimal literal
`0.001425` is modelled as the exact rational `1425 / 1000000`. -/
def calcBrokerFee (market : Market) (brokerFeeInput : Option ℚ)
    (grossAmount : ℚ) : ℚ :=
  if market = .TW ∧ jsFalsy brokerFeeInput then
    max ((jsRound (grossAmount * (1425 / 1000000)) : ℤ) : ℚ) 20
  else
    brokerFeeInput.getD 0

/-- Embeds the sell-tax computation of `POST /api/transactions`
(route.ts lines 92, 101–103; identically in `PUT` at `[id]/route.ts`
lines 103, 111–113): `tax = data.tax ?? 0`, replaced for a TW-market SELL
with a falsy input by `Math.round(grossAmount * 0.003)`. -/
def calcTax (market : Market) (type : TradeType) (taxInput : Option ℚ)
    (grossAmount : ℚ) : ℚ :=
  if market = .TW ∧ type = .SELL ∧ jsFalsy taxInput then
    ((jsRound (grossAmount * (3 / 1000)) : ℤ) : ℚ)
  else
    taxInput.getD 0

/-- The signed total cash amount of a trade (route.ts lines 105–108):
`gross + fees + tax` for a BUY, `gross - fees - tax` for a SELL. -/
def totalAmountOf (type : TradeType) (grossAmount brokerFee tax : ℚ) : ℚ :=
  match type with
  | .BUY => grossAmount + brokerFee + tax
  | .SELL => grossAmount - brokerFee - tax

/-- The values persisted and produced when one trade is recorded. -/
structure RecordResult where
  brokerFee : ℚ
  tax : ℚ
  totalAmount : ℚ
  holding : Option Holding
deriving DecidableEq, Repr

/-- Embeds the computational path of `POST /api/transactions`
(route.ts lines 89–131): `grossAmount = quantity * price`, fee and tax
defaulting, the signed `totalAmount`, and the holdings update called with
`costPerShare = totalAmount / quantity` for a BUY and the quoted `price` for
a SELL. -/
def recordTrade (market : Market) (type : TradeType) (quantity : ℤ)
    (price : ℚ) (brokerFeeInput taxInput : Option ℚ)
    (existingHolding : Option Holding) : RecordResult :=
  let grossAmount := (quantity : ℚ) * price
  let brokerFee := calcBrokerFee market brokerFeeInput grossAmount
  let tax := calcTax market type taxInput grossAmount
  let totalAmount := totalAmountOf type grossAmount brokerFee tax
  let costPerShare :=
    match type with
    | .BUY => totalAmount / (quantity : ℚ)
    | .SELL => price
  { brokerFee := brokerFee, tax := tax, totalAmount := totalAmount,
    holding := updateHoldings existingHolding type quantity costPerShare }

/-- One `daily_net_values` row as read by `calculateUserNetValue`: the date
(an abstract day number, increasing with calendar date) and the stored
`totalValue`. -/
structure Snapshot where
  date : ℕ
  totalValue : ℚ
deriving DecidableEq, Repr

/-- Embeds the dailyReturn / cumulativeReturn logic of
`calculateUserNetValue` (net-value.ts lines 69–113).  The user's stored
snapshot rows are modelled as a list ordered ascending by date (uniqueness
on (user, date) makes the dates distinct), so the source's
`findFirst orderBy desc(date)` is `getLast?` and `findFirst orderBy date` is
`head?`.  Both returns are computed only when the most recent stored
snapshot exists with `totalValue > 0`; `cumulativeReturn` additionally
requires the first stored snapshot to have `totalValue > 0`. -/
def computeReturns (snapshots : List Snapshot) (totalValueTWD : ℚ) :
    Option ℚ × Option ℚ :=
  match snapshots.getLast? with
  | none => (none, none)
  | some previousValue =>
    if 0 < previousValue.totalValue then
      let dailyReturn :=
        (totalValueTWD - previousValue.totalValue) / previousValue.totalValue
      let cumulativeReturn :=
        match snapshots.head? with
        | none => none
        | some firstValue =>
          if 0 < firstValue.totalValue then
            some ((totalValueTWD - firstValue.totalValue) /
              firstValue.totalValue)
          else none
      (some dailyReturn, cumulativeReturn)
    else (none, none)

/-- Stated from the specification's words (§4.3), for comparison with
`computeReturns`: `dailyReturn = (today - prior) / prior` against the most
recent snapshot strictly before today's date, defined only when such a prior
snapshot exists with positive value; `cumulativeReturn = (today - first) /
first` against the very first snapshot, defined only when it is positive and
a strictly prior snapshot exists (never on the user's first snapshot
day). -/
def specReturns (snapshots : List Snapshot) (today : ℕ)
    (totalValueTWD : ℚ) : Option ℚ × Option ℚ :=
  match (snapshots.filter (fun s => s.date < today)).getLast? with
  | none => (none, none)
  | some prior =>
    let dailyReturn :=
      if 0 < prior.totalValue then
        some ((totalValueTWD - prior.totalValue) / prior.totalValue)
      else none
    let cumulativeReturn :=
      match snapshots.head? with
      | none => none
      | some firstValue =>
        if 0 < firstValue.totalValue then
          some ((totalValueTWD - firstValue.totalValue) /
            firstValue.totalValue)
        else none
    (dailyReturn, cumulativeReturn)

/-- The observable behaviour of one user inside the batch loop of
`snapshotAllUserNetValues` (net-value.ts lines 152–165): the outcome of
`calculateUserNetValue` (`error` = an exception escaped, `ok none` = the
function returned `null`, `ok (some v)` = a net value with
`totalValueTWD = v`), and the outcome of `saveUserNetValue` (consulted only
when `v > 0`). -/
structure UserRun where
  userId : String
  compute : Except String (Option ℚ)
  save : Except String Unit

/-- The aggregate result type `SnapshotResult` of net-value.ts. -/
structure SnapshotResultM where
  success : Bool
  usersProcessed : ℕ
  errors : List String
deriving DecidableEq, Repr

/-- One iteration of the per-user loop of `snapshotAllUserNetValues`
(net-value.ts lines 152–165): an exception from either step appends
`User <id>: <message>` to the error list and moves on; a positive net value
that saves successfully increments `usersProcessed`; a `null` or
non-positive net value is skipped silently. -/
def snapshotStep (acc : ℕ × List String) (u : UserRun) : ℕ × List String :=
  match u.compute with
  | .error e => (acc.1, acc.2 ++ ["User " ++ u.userId ++ ": " ++ e])
  | .ok none => acc
  | .ok (some v) =>
    if 0 < v then
      match u.save with
      | .error e => (acc.1, acc.2 ++ ["User " ++ u.userId ++ ": " ++ e])
      | .ok _ => (acc.1 + 1, acc.2)
    else acc

/-- Embeds `snapshotAllUserNetValues` (net-value.ts lines 144–180): fold the
per-user loop over the user list starting from no errors and zero processed
users, and report `success` exactly when the collected error list is
empty. -/
def snapshotAllUserNetValues (users : List UserRun) : SnapshotResultM :=
  let r := users.foldl snapshotStep (0, [])
  { success := r.2.isEmpty, usersProcessed := r.1, errors := r.2 }

/-- The error message contributed by one user of the batch, if any (the
cases of `snapshotStep` that append to the error list). -/
def userError (u : UserRun) : Option String :=
  match u.compute with
  | .error e => some ("User " ++ u.userId ++ ": " ++ e)
  | .ok none => none
  | .ok (some v) =>
    if 0 < v then
      match u.save with
      | .error e => some ("User " ++ u.userId ++ ": " ++ e)
      | .ok _ => none
    else none

/-- Whether one user of the batch counts into `usersProcessed`: a positive
net value that was saved without an exception. -/
def userSucceeded (u : UserRun) : Bool :=
  match u.compute with
  | .ok (some v) =>
    if 0 < v then
      match u.save with
      | .ok _ => true
      | .error _ => false
    else false
  | _ => false

/-- One point of the net-value series fed to `calculateMaxDrawdown`
(analytics.ts): a date (abstract day number) and the snapshot value. -/
structure ValuePoint where
  date : ℕ
  value : ℚ
deriving DecidableEq, Repr

/-- The loop state of `calculateMaxDrawdown` (analytics.ts lines 128–147):
the best drawdown so far, the running peak and its date, the recorded
[start, end] interval, and the start date of the current decline. -/
structure DrawdownState where
  maxDrawdown : ℚ
  peak : ℚ
  peakDate : ℕ
  drawdownStart : ℕ
  drawdownEnd : ℕ
  currentDrawdownStart : ℕ
deriving DecidableEq, Repr

/-- One iteration of the `calculateMaxDrawdown` scan (analytics.ts lines
134–147): a strictly higher value resets the running peak and the current
decline's start; the drawdown at the point is `(peak - value) / peak`; a
strictly larger drawdown (ties lose) records itself together with the
[currentDrawdownStart, point.date] interval. -/
def drawdownStep (st : DrawdownState) (point : ValuePoint) : DrawdownState :=
  let st1 :=
    if st.peak < point.value then
      { st with peak := point.value, peakDate := point.date,
                currentDrawdownStart := point.date }
    else st
  let drawdown := (st1.peak - point.value) / st1.peak
  if st1.maxDrawdown < drawdown then
    { st1 with maxDrawdown := drawdown,
               drawdownStart := st1.currentDrawdownStart,
               drawdownEnd := point.date }
  else st1

/-- Embeds `calculateMaxDrawdown` (analytics.ts lines 121–156): series of
fewer than two points report zero; otherwise a single scan from the first
point's value as initial peak, returning the maximal drawdown as a percent
and, when it is positive, the [drawdownStart, drawdownEnd] interval. -/
def calculateMaxDrawdown (values : List ValuePoint) : ℚ × Option (ℕ × ℕ) :=
  match values with
  | [] => (0, none)
  | v0 :: _ =>
    if values.length < 2 then (0, none)
    else
      let final := values.foldl drawdownStep
        ⟨0, v0.value, v0.date, v0.date, v0.date, v0.date⟩
      (final.maxDrawdown * 100,
        if 0 < final.maxDrawdown then
          some (final.drawdownStart, final.drawdownEnd)
        else none)

/-- The declarative per-point drawdown list used to state what the scan
computes: with `peak` the running maximum of everything before the list,
each point contributes `(peak2 - value) / peak2` where `peak2` is the
running maximum including the point. -/
def drawdownsFrom (peak : ℚ) : List ValuePoint → List ℚ
  | [] => []
  | p :: rest =>
    (max peak p.value - p.value) / max peak p.value ::
      drawdownsFrom (max peak p.value) rest

/-! ## Branch lemmas for the position engine -/

lemma applyHoldingEffect_buy_some (h : Holding) (q : ℤ) (c : ℚ) :
    applyHoldingEffect (some h) .BUY q c =
      some ⟨h.quantity + q, (h.totalCost + (q : ℚ) * c) / ((h.quantity + q : ℤ) : ℚ),
        h.totalCost + (q : ℚ) * c⟩ := rfl

lemma reverseHoldingEffect_buy_some_of_lt (h : Holding) (q : ℤ) (c : ℚ)
    (hlt : q < h.quantity) :
    reverseHoldingEffect (some h) .BUY q c =
      some ⟨h.quantity - q,
        max 0 ((h.totalCost - (q : ℚ) * c) / ((h.quantity - q : ℤ) : ℚ)),
        max 0 (h.totalCost - (q : ℚ) * c)⟩ := by
  simp only [reverseHoldingEffect]
  rw [if_neg (by omega)]

lemma buy_roundtrip (h : Holding) (q : ℤ) (c : ℚ) (hinv : holdingInvariant h)
    (hq : 0 < h.quantity) (_hqq : 0 < q) (htc : 0 ≤ h.totalCost) :
    reverseHoldingEffect (applyHoldingEffect (some h) .BUY q c) .BUY q c = some h := by
  rw [applyHoldingEffect_buy_some]
  rw [reverseHoldingEffect_buy_some_of_lt _ _ _ (by simp only []; omega)]
  simp only []
  have h1 : h.totalCost + (q : ℚ) * c - (q : ℚ) * c = h.totalCost := by ring
  have h2 : h.quantity + q - q = h.quantity := by ring
  have h4 : (0:ℚ) ≤ h.totalCost / (h.quantity : ℚ) := by
    apply div_nonneg htc
    exact_mod_cast hq.le
  have h3 : h.totalCost / (h.quantity : ℚ) = h.averageCost := by
    rw [hinv]
    field_simp
  congr 1
  ext
  · exact h2
  · rw [h1, h2, max_eq_right (by rw [h3] at h4 ⊢; exact h4)]
    exact h3
  · rw [h1, max_eq_right htc]

lemma buy_roundtrip_none (q : ℤ) (c : ℚ) :
    reverseHoldingEffect (applyHoldingEffect none .BUY q c) .BUY q c = none := by
  simp only [applyHoldingEffect, reverseHoldingEffect]
  rw [if_pos (by omega)]

lemma sell_roundtrip_avg (h : Holding) (q : ℤ) (hinv : holdingInvariant h)
    (_hq : 0 < q) (hle : q ≤ h.quantity) :
    reverseHoldingEffect (applyHoldingEffect (some h) .SELL q h.averageCost)
      .SELL q h.averageCost = some h := by
  rcases eq_or_lt_of_le hle with heq | hlt
  · simp only [applyHoldingEffect]
    rw [if_pos (by omega)]
    simp only [reverseHoldingEffect]
    congr 1
    ext
    · exact heq
    · rfl
    · rw [hinv, ← heq]
      ring
  · simp only [applyHoldingEffect]
    rw [if_neg (by omega)]
    simp only [reverseHoldingEffect]
    congr 1
    ext
    · simp only []
      omega
    · rfl
    · simp only []
      rw [hinv]
      push_cast
      ring

lemma inv_apply_buy_some (h : Holding) (q : ℤ) (c : ℚ) (hne : h.quantity + q ≠ 0) :
    holdingInvariantO (applyHoldingEffect (some h) .BUY q c) := by
  simp only [applyHoldingEffect, holdingInvariantO, holdingInvariant]
  rw [div_mul_cancel₀]
  exact_mod_cast hne

lemma inv_apply_buy_none (q : ℤ) (c : ℚ) :
    holdingInvariantO (applyHoldingEffect none .BUY q c) := by
  simp only [applyHoldingEffect, holdingInvariantO, holdingInvariant]
  ring

lemma inv_apply_sell (h : Holding) (q : ℤ) (c : ℚ) :
    holdingInvariantO (applyHoldingEffect (some h) .SELL q c) := by
  simp only [applyHoldingEffect]
  split
  · trivial
  · simp only [holdingInvariantO, holdingInvariant]
    ring

lemma inv_reverse_buy (h : Holding) (q : ℤ) (c : ℚ) :
    holdingInvariantO (reverseHoldingEffect (some h) .BUY q c) := by
  simp only [reverseHoldingEffect]
  split
  · trivial
  · rename_i hq
    simp only [holdingInvariantO, holdingInvariant]
    have hq2 : (0:ℚ) < ((h.quantity - q : ℤ) : ℚ) := by exact_mod_cast by omega
    rcases le_or_lt 0 (h.totalCost - (q : ℚ) * c) with hc | hc
    · rw [max_eq_right hc, max_eq_right (div_nonneg hc hq2.le), div_mul_cancel₀]
      exact hq2.ne'
    · rw [max_eq_left hc.le,
        max_eq_left (div_nonpos_of_nonpos_of_nonneg hc.le hq2.le), zero_mul]

lemma inv_reverse_sell_none (q : ℤ) (c : ℚ) :
    holdingInvariantO (reverseHoldingEffect none .SELL q c) := by
  simp only [reverseHoldingEffect, holdingInvariantO, holdingInvariant]
  ring

lemma inv_reverse_sell_avg (h : Holding) (q : ℤ) (hinv : holdingInvariant h) :
    holdingInvariantO (reverseHoldingEffect (some h) .SELL q h.averageCost) := by
  simp only [reverseHoldingEffect, holdingInvariantO, holdingInvariant]
  rw [hinv]
  push_cast
  ring

lemma sell_closes (h : Holding) (q : ℤ) (c : ℚ) (hle : h.quantity ≤ q) :
    updateHoldings (some h) .SELL q c = none ∧
      applyHoldingEffect (some h) .SELL q c = none := by
  constructor
  · simp only [updateHoldings]
    rw [if_pos (by omega)]
  · simp only [applyHoldingEffect]
    rw [if_pos (by omega)]

lemma sell_below_quantity (h : Holding) (q : ℤ) (c : ℚ) (hlt : q < h.quantity) :
    updateHoldings (some h) .SELL q c =
      some ⟨h.quantity - q, h.averageCost, ((h.quantity - q : ℤ) : ℚ) * h.averageCost⟩ := by
  simp only [updateHoldings]
  rw [if_neg (by omega)]

/-! ## Claim theorems -/

/-- C1 (counterexample): the claimed round trip fails for a SELL whose
cost-per-share differs from the holding's average cost.  Applying a SELL of
1 share at cost-per-share 5 to the valid holding (quantity 2, averageCost
10, totalCost 20) removes `1 × averageCost = 10` from totalCost, while
reversing it adds back `1 × 5 = 5`, ending at totalCost 15 instead of
20. -/
theorem C1_counterexample :
    holdingInvariant { quantity := 2, averageCost := 10, totalCost := 20 } ∧
    reverseHoldingEffect (applyHoldingEffect
        (some { quantity := 2, averageCost := 10, totalCost := 20 }) .SELL 1 5) .SELL 1 5 ≠
      some { quantity := 2, averageCost := 10, totalCost := 20 } := by
  constructor
  · norm_num [holdingInvariant]
  · norm_num [applyHoldingEffect, reverseHoldingEffect, Holding.mk.injEq]

/-- C1 (amended): reversing a trade after applying it restores the original
holding for a BUY (for a holding satisfying the invariant with positive
quantity and nonnegative totalCost, and with deletion closing the circle
when the holding was initially absent); for a SELL it does so only when the
cost-per-share equals the holding's average cost, since applyTrade reduces
totalCost by `q × averageCost` while reverseTrade adds back `q × c` without
recomputing averageCost. -/
theorem C1_apply_reverse_roundtrip :
    (∀ (h : Holding) (q : ℤ) (c : ℚ), holdingInvariant h → 0 < h.quantity → 0 < q →
        0 ≤ h.totalCost →
        reverseHoldingEffect (applyHoldingEffect (some h) .BUY q c) .BUY q c = some h) ∧
    (∀ (q : ℤ) (c : ℚ),
        reverseHoldingEffect (applyHoldingEffect none .BUY q c) .BUY q c = none) ∧
    (∀ (h : Holding) (q : ℤ), holdingInvariant h → 0 < q → q ≤ h.quantity →
        reverseHoldingEffect (applyHoldingEffect (some h) .SELL q h.averageCost)
          .SELL q h.averageCost = some h) :=
  ⟨buy_roundtrip, buy_roundtrip_none, sell_roundtrip_avg⟩

/-- C1 (witness): the BUY round trip of `C1_apply_reverse_roundtrip` at the
concrete holding (3, 7, 21), quantity 2, cost-per-share 5. -/
theorem C1_witness :
    reverseHoldingEffect (applyHoldingEffect
        (some { quantity := 3, averageCost := 7, totalCost := 21 }) .BUY 2 5) .BUY 2 5 =
      some { quantity := 3, averageCost := 7, totalCost := 21 } :=
  C1_apply_reverse_roundtrip.1 _ 2 5 (by norm_num [holdingInvariant]) (by norm_num)
    (by norm_num) (by norm_num)

/-- C2 (counterexample): reversing a SELL of 1 share at cost-per-share 5
onto the valid holding (quantity 1, averageCost 10, totalCost 10) produces
(quantity 2, averageCost 10, totalCost 15), which violates
`totalCost = averageCost * quantity` because averageCost is not
recomputed. -/
theorem C2_counterexample :
    holdingInvariant { quantity := 1, averageCost := 10, totalCost := 10 } ∧
    ¬ holdingInvariantO (reverseHoldingEffect
        (some { quantity := 1, averageCost := 10, totalCost := 10 }) .SELL 1 5) := by
  constructor
  · norm_num [holdingInvariant]
  · norm_num [reverseHoldingEffect, holdingInvariantO, holdingInvariant]

/-- C2 (amended): the invariant `totalCost = averageCost * quantity` is
preserved by applying a BUY (fresh creation included, with a nonzero
resulting quantity), applying a SELL, reversing a BUY, and reversing a SELL
that recreates a deleted holding; reversing a SELL onto an existing holding
preserves it only when the cost-per-share equals the holding's average
cost. -/
theorem C2_invariant_preservation :
    (∀ (h : Holding) (q : ℤ) (c : ℚ), h.quantity + q ≠ 0 →
        holdingInvariantO (applyHoldingEffect (some h) .BUY q c)) ∧
    (∀ (q : ℤ) (c : ℚ), holdingInvariantO (applyHoldingEffect none .BUY q c)) ∧
    (∀ (h : Holding) (q : ℤ) (c : ℚ),
        holdingInvariantO (applyHoldingEffect (some h) .SELL q c)) ∧
    (∀ (h : Holding) (q : ℤ) (c : ℚ),
        holdingInvariantO (reverseHoldingEffect (some h) .BUY q c)) ∧
    (∀ (q : ℤ) (c : ℚ), holdingInvariantO (reverseHoldingEffect none .SELL q c)) ∧
    (∀ (h : Holding) (q : ℤ), holdingInvariant h →
        holdingInvariantO (reverseHoldingEffect (some h) .SELL q h.averageCost)) :=
  ⟨inv_apply_buy_some, inv_apply_buy_none, inv_apply_sell, inv_reverse_buy,
    inv_reverse_sell_none, inv_reverse_sell_avg⟩

/-- C2 (witness): invariant preservation at concrete inputs, once for a BUY
onto (1, 10, 10) and once for a SELL reversal at the holding's own average
cost onto (2, 10, 20). -/
theorem C2_witness :
    holdingInvariantO (applyHoldingEffect
      (some { quantity := 1, averageCost := 10, totalCost := 10 }) .BUY 2 4) ∧
    holdingInvariantO (reverseHoldingEffect
      (some { quantity := 2, averageCost := 10, totalCost := 20 }) .SELL 3 10) :=
  ⟨C2_invariant_preservation.1 _ 2 4 (by norm_num),
   C2_invariant_preservation.2.2.2.2.2 _ 3 (by norm_num [holdingInvariant])⟩

/-- C5: a SELL of at least the held quantity proceeds (no error case exists
in the code path) and deletes the holding row: no row with zero or negative
quantity remains, in both the incremental `updateHoldings` path and the
edit-path `applyHoldingEffect`. -/
theorem C5_oversell_deletes :
    ∀ (h : Holding) (q : ℤ) (c : ℚ), h.quantity ≤ q →
      updateHoldings (some h) .SELL q c = none ∧
        applyHoldingEffect (some h) .SELL q c = none :=
  sell_closes

/-- C5 (witness): selling all 5 held shares deletes the row. -/
theorem C5_witness :
    updateHoldings (some { quantity := 5, averageCost := 10, totalCost := 50 })
        .SELL 5 9 = none ∧
      applyHoldingEffect (some { quantity := 5, averageCost := 10, totalCost := 50 })
        .SELL 5 9 = none :=
  C5_oversell_deletes _ 5 9 (by decide)

/-- C6: a SELL that leaves a positive quantity keeps `averageCost` unchanged
and sets `totalCost = remaining quantity × averageCost`. -/
theorem C6_sell_preserves_averageCost :
    ∀ (h : Holding) (q : ℤ) (c : ℚ), q < h.quantity →
      updateHoldings (some h) .SELL q c =
        some { quantity := h.quantity - q, averageCost := h.averageCost,
               totalCost := ((h.quantity - q : ℤ) : ℚ) * h.averageCost } :=
  sell_below_quantity

/-- C6 (witness): selling 2 of 5 shares at quoted price 99 leaves the
average cost 10 untouched. -/
theorem C6_witness :
    updateHoldings (some { quantity := 5, averageCost := 10, totalCost := 50 })
        .SELL 2 99 =
      some { quantity := 3, averageCost := 10, totalCost := 30 } := by
  rw [C6_sell_preserves_averageCost _ 2 99 (by decide)]
  norm_num [Holding.mk.injEq]


lemma calcBrokerFee_zero_eq_none (g : ℚ) :
    calcBrokerFee .TW (some 0) g = calcBrokerFee .TW none g := by
  simp [calcBrokerFee, jsFalsy]

lemma calcTax_buy (m : Market) (ti : Option ℚ) (g : ℚ) :
    calcTax m .BUY ti g = ti.getD 0 := by
  simp [calcTax]

lemma calcTax_zero_eq_none (ty : TradeType) (g : ℚ) :
    calcTax .TW ty (some 0) g = calcTax .TW ty none g := by
  rcases ty with _ | _ <;> simp [calcTax, jsFalsy]

/-- C4: for a TW-market trade with no broker fee supplied, the recorded fee
is `round(gross * 0.001425)` floored at the minimum fee of 20; for a
TW-market SELL with no tax supplied, the recorded tax is
`round(gross * 0.003)`; `totalAmount` is `gross + fees + tax` for a BUY and
`gross - fees - tax` for a SELL; and concretely a BUY of 1000 shares at
price 100 with fee 20 from an empty holding yields `totalAmount = 100020`
and a fee-inclusive `averageCost = 100.02`. -/
theorem C4_fee_total_example :
    (∀ (ty : TradeType) (q : ℤ) (p : ℚ) (t : Option ℚ) (h : Option Holding),
        (recordTrade .TW ty q p none t h).brokerFee =
          max ((jsRound ((q : ℚ) * p * (1425 / 1000000)) : ℤ) : ℚ) 20) ∧
    (∀ (q : ℤ) (p : ℚ) (f : Option ℚ) (h : Option Holding),
        (recordTrade .TW .SELL q p f none h).tax =
          ((jsRound ((q : ℚ) * p * (3 / 1000)) : ℤ) : ℚ)) ∧
    (∀ (m : Market) (q : ℤ) (p : ℚ) (fi ti : Option ℚ) (h : Option Holding),
        (recordTrade m .BUY q p fi ti h).totalAmount =
          (q : ℚ) * p + (recordTrade m .BUY q p fi ti h).brokerFee +
            (recordTrade m .BUY q p fi ti h).tax) ∧
    (∀ (m : Market) (q : ℤ) (p : ℚ) (fi ti : Option ℚ) (h : Option Holding),
        (recordTrade m .SELL q p fi ti h).totalAmount =
          (q : ℚ) * p - (recordTrade m .SELL q p fi ti h).brokerFee -
            (recordTrade m .SELL q p fi ti h).tax) ∧
    recordTrade .TW .BUY 1000 100 (some 20) none none =
      { brokerFee := 20, tax := 0, totalAmount := 100020,
        holding := some { quantity := 1000, averageCost := 100.02,
                          totalCost := 100020 } } := by
  refine ⟨?_, ?_, ?_, ?_, ?_⟩
  · intro ty q p t h
    simp [recordTrade, calcBrokerFee, jsFalsy]
  · intro q p f h
    simp [recordTrade, calcTax, jsFalsy]
  · intro m q p fi ti h
    rfl
  · intro m q p fi ti h
    rfl
  · simp only [recordTrade, calcBrokerFee, calcTax_buy, jsFalsy, totalAmountOf,
      updateHoldings]
    norm_num [RecordResult.mk.injEq, Holding.mk.injEq]

/-- C9: for a TW-market trade, explicitly supplying `brokerFee = 0` (or
`tax = 0` for a SELL) produces exactly the same record as supplying nothing,
because the fee check tests falsiness; and the broker fee recorded for a
falsy input is always at least the minimum fee 20, so a genuinely zero-fee
TW trade cannot be recorded. -/
theorem C9_zero_fee_treated_as_absent :
    (∀ (ty : TradeType) (q : ℤ) (p : ℚ) (t : Option ℚ) (h : Option Holding),
        recordTrade .TW ty q p (some 0) t h = recordTrade .TW ty q p none t h) ∧
    (∀ (q : ℤ) (p : ℚ) (f : Option ℚ) (h : Option Holding),
        recordTrade .TW .SELL q p f (some 0) h =
          recordTrade .TW .SELL q p f none h) ∧
    (∀ (ty : TradeType) (q : ℤ) (p : ℚ) (t : Option ℚ) (h : Option Holding),
        20 ≤ (recordTrade .TW ty q p (some 0) t h).brokerFee) := by
  refine ⟨?_, ?_, ?_⟩
  · intro ty q p t h
    simp only [recordTrade, calcBrokerFee_zero_eq_none]
  · intro q p f h
    simp only [recordTrade, calcTax_zero_eq_none]
  · intro ty q p t h
    show 20 ≤ calcBrokerFee .TW (some 0) ((q : ℚ) * p)
    rw [calcBrokerFee]
    rw [if_pos ⟨rfl, rfl⟩]
    exact le_max_right _ _

lemma record_delete_general (h : Holding) (q : ℤ) (p fee tax : ℚ)
    (hq : 0 < q) (hqty : 0 < h.quantity) (htc : 0 ≤ h.totalCost)
    (hF : 0 ≤ fee + tax) :
    reverseHoldingEffect
        (updateHoldings (some h) .BUY q (((q : ℚ) * p + fee + tax) / (q : ℚ)))
        .BUY q p =
      some ⟨h.quantity, (h.totalCost + fee + tax) / (h.quantity : ℚ),
        h.totalCost + fee + tax⟩ := by
  have hq0 : ((q : ℚ)) ≠ 0 := by exact_mod_cast hq.ne'
  simp only [updateHoldings]
  rw [reverseHoldingEffect_buy_some_of_lt _ _ _ (by simp only []; omega)]
  simp only []
  have e1 : h.totalCost + (q : ℚ) * (((q : ℚ) * p + fee + tax) / (q : ℚ)) -
      (q : ℚ) * p = h.totalCost + fee + tax := by
    field_simp
    ring
  have e2 : h.quantity + q - q = h.quantity := by ring
  have hF2 : (0:ℚ) ≤ h.totalCost + fee + tax := by linarith
  have hdiv : (0:ℚ) ≤ (h.totalCost + fee + tax) / (h.quantity : ℚ) := by
    apply div_nonneg hF2
    exact_mod_cast hqty.le
  congr 1
  ext
  · exact e2
  · rw [e1, e2, max_eq_right hdiv]
  · rw [e1, max_eq_right hF2]

/-- C10: recording a BUY applies the fee-loaded cost per share
(`totalAmount / quantity`) while deleting it reverses at the quoted price,
so for a pre-existing holding that survives the reversal, record-then-delete
leaves `totalCost` higher than before by exactly the broker fee plus tax
(and `averageCost` raised accordingly); with any nonzero fee or tax the
original holding is therefore not restored. -/
theorem C10_record_delete_overshoot :
    ∀ (h : Holding) (q : ℤ) (p : ℚ) (fi ti : Option ℚ) (m : Market),
      0 < q → 0 < h.quantity → 0 ≤ h.totalCost →
      0 ≤ (recordTrade m .BUY q p fi ti (some h)).brokerFee +
          (recordTrade m .BUY q p fi ti (some h)).tax →
      reverseHoldingEffect (recordTrade m .BUY q p fi ti (some h)).holding
          .BUY q p =
        some { quantity := h.quantity,
               averageCost := (h.totalCost +
                   (recordTrade m .BUY q p fi ti (some h)).brokerFee +
                   (recordTrade m .BUY q p fi ti (some h)).tax) /
                 (h.quantity : ℚ),
               totalCost := h.totalCost +
                   (recordTrade m .BUY q p fi ti (some h)).brokerFee +
                   (recordTrade m .BUY q p fi ti (some h)).tax } := by
  intro h q p fi ti m hq hqty htc hF
  have := record_delete_general h q p
    (calcBrokerFee m fi ((q : ℚ) * p)) (calcTax m .BUY ti ((q : ℚ) * p))
    hq hqty htc hF
  exact this

/-- C10 (witness): recording a BUY of 5 shares at price 100 with fee 20
onto the holding (10, 10, 100) and then deleting it ends at totalCost 120 =
100 + 20, not the original 100. -/
theorem C10_witness :
    reverseHoldingEffect (recordTrade .TW .BUY 5 100 (some 20) none
        (some { quantity := 10, averageCost := 10, totalCost := 100 })).holding
        .BUY 5 100 =
      some { quantity := 10, averageCost := 12, totalCost := 120 } := by
  rw [C10_record_delete_overshoot ⟨10, 10, 100⟩ 5 100 (some 20) none .TW
    (by norm_num) (by norm_num) (by norm_num)
    (by simp only [recordTrade, calcBrokerFee, calcTax_buy, jsFalsy]; norm_num)]
  simp only [recordTrade, calcBrokerFee, calcTax_buy, jsFalsy]
  norm_num [Holding.mk.injEq]

lemma mem_of_getLast?_eq (l : List Snapshot) (a : Snapshot) (h : l.getLast? = some a) :
    a ∈ l := by
  rcases List.mem_getLast?_eq_getLast (l := l) (x := a) (by rw [h]; rfl) with ⟨hne, heq⟩
  rw [heq]
  exact List.getLast_mem hne

/-- C3 (counterexample): when a snapshot for today's date already exists
(same-day recompute) and is the user's only snapshot (date 5 = today, value
100), the code computes `dailyReturn = cumulativeReturn = (110 - 100)/100 =
1/10` from today's own row, whereas the claim (formalised by `specReturns`)
requires both to be undefined: no snapshot strictly prior to today exists,
and this is the user's first snapshot day. -/
theorem C3_counterexample :
    computeReturns [⟨5, 100⟩] 110 ≠ specReturns [⟨5, 100⟩] 5 110 ∧
    computeReturns [⟨5, 100⟩] 110 = (some (1 / 10), some (1 / 10)) ∧
    specReturns [⟨5, 100⟩] 5 110 = (none, none) := by
  refine ⟨?_, ?_, ?_⟩
  · norm_num [computeReturns, specReturns, List.filter]
    simp
  · norm_num [computeReturns]
  · norm_num [specReturns, List.filter]

/-- C3 (amended): `dailyReturn = (today - prior)/prior` and
`cumulativeReturn = (today - first)/first` hold with `prior` the user's most
recent snapshot of any date, which equals the most recent strictly-prior
snapshot exactly when no row for today's date exists yet; under that
condition (and with all stored values positive, which holds since
non-positive snapshots are never persisted) the code agrees with the
specification's reading. On a same-day recompute, `prior` is instead
today's own row and `cumulativeReturn` can be produced on the user's first
snapshot day. -/
theorem C3_returns_match_spec_when_no_same_day_row :
    ∀ (snapshots : List Snapshot) (today : ℕ) (totalValueTWD : ℚ),
      (∀ s ∈ snapshots, s.date < today) →
      (∀ s ∈ snapshots, 0 < s.totalValue) →
      computeReturns snapshots totalValueTWD =
        specReturns snapshots today totalValueTWD := by
  intro snapshots today v hlt hpos
  unfold computeReturns specReturns
  have hfil : snapshots.filter (fun s => s.date < today) = snapshots :=
    List.filter_eq_self.mpr (fun s hs => by simpa using hlt s hs)
  rw [hfil]
  cases hL : snapshots.getLast? with
  | none => rfl
  | some prev =>
    have hmem : prev ∈ snapshots := mem_of_getLast?_eq _ _ hL
    dsimp only
    rw [if_pos (hpos prev hmem), if_pos (hpos prev hmem)]

/-- C3 (witness): with two strictly prior snapshots (dates 3 and 4, today =
5), the code and the specification's reading agree. -/
theorem C3_witness :
    computeReturns [⟨3, 100⟩, ⟨4, 110⟩] 121 = specReturns [⟨3, 100⟩, ⟨4, 110⟩] 5 121 :=
  C3_returns_match_spec_when_no_same_day_row [⟨3, 100⟩, ⟨4, 110⟩] 5 121
    (by decide) (by norm_num)

lemma snapshotStep_eq (n : ℕ) (es : List String) (u : UserRun) :
    snapshotStep (n, es) u =
      (n + (if userSucceeded u then 1 else 0), es ++ (userError u).toList) := by
  unfold snapshotStep userSucceeded userError
  rcases hc : u.compute with e | ov
  · simp
  · rcases ov with _ | v
    · simp
    · rcases lt_or_le 0 v with hv | hv
      · rcases hsave : u.save with e | u2 <;> simp [hv, hsave]
      · simp [not_lt.mpr hv]

lemma foldl_snapshotStep (users : List UserRun) :
    ∀ (n : ℕ) (es : List String),
      users.foldl snapshotStep (n, es) =
        (n + (users.filter (fun u => userSucceeded u)).length,
         es ++ users.filterMap userError) := by
  induction users with
  | nil => intro n es; simp
  | cons u rest ih =>
    intro n es
    rw [List.foldl_cons, snapshotStep_eq, ih]
    rcases hs : userSucceeded u <;> rcases he : userError u with _ | m <;>
      simp [List.filter_cons, List.filterMap_cons, hs, he] <;> omega

/-- C7: in the batch snapshot run, each user's outcome is accounted for
independently of every other user's: the collected error list is exactly the
per-user error messages (`filterMap` over the whole user list, so a failing
user never prevents later users from contributing), `usersProcessed` counts
exactly the users whose positive net value was saved, and the batch reports
success if and only if the error list is empty. -/
theorem C7_batch_error_isolation :
    ∀ (users : List UserRun),
      ((snapshotAllUserNetValues users).success = true ↔
        (snapshotAllUserNetValues users).errors = []) ∧
      (snapshotAllUserNetValues users).errors = users.filterMap userError ∧
      (snapshotAllUserNetValues users).usersProcessed =
        (users.filter (fun u => userSucceeded u)).length := by
  intro users
  unfold snapshotAllUserNetValues
  rw [foldl_snapshotStep]
  simp [List.isEmpty_iff]

/-- C7 (witness): a batch of a failing user "a" followed by a succeeding
user "b" collects exactly the error `User a: boom`, still processes user
"b", and reports `success = false`. -/
theorem C7_witness :
    (snapshotAllUserNetValues
        [{ userId := "a", compute := .error "boom", save := .ok () },
         { userId := "b", compute := .ok (some 5), save := .ok () }]).errors =
      ["User a: boom"] ∧
    (snapshotAllUserNetValues
        [{ userId := "a", compute := .error "boom", save := .ok () },
         { userId := "b", compute := .ok (some 5), save := .ok () }]).usersProcessed = 1 ∧
    (snapshotAllUserNetValues
        [{ userId := "a", compute := .error "boom", save := .ok () },
         { userId := "b", compute := .ok (some 5), save := .ok () }]).success = false := by
  have h := C7_batch_error_isolation
    [{ userId := "a", compute := .error "boom", save := .ok () },
     { userId := "b", compute := .ok (some 5), save := .ok () }]
  refine ⟨h.2.1.trans ?_, h.2.2.trans ?_, ?_⟩
  · norm_num [userError, List.filterMap]
    rfl
  · norm_num [userSucceeded, List.filter]
  · rcases hs : (snapshotAllUserNetValues _).success with _ | _
    · rfl
    · exfalso
      have h2 := h.1.mp hs
      rw [h.2.1] at h2
      norm_num [userError, List.filterMap] at h2

lemma drawdownStep_peak (st : DrawdownState) (p : ValuePoint) :
    (drawdownStep st p).peak = max st.peak p.value := by
  unfold drawdownStep
  rcases lt_or_le st.peak p.value with h1 | h1
  · rw [if_pos h1]
    dsimp only
    split <;> simp [max_eq_right h1.le]
  · rw [if_neg (not_lt.mpr h1)]
    dsimp only
    split <;> simp [max_eq_left h1]

lemma drawdownStep_maxDrawdown (st : DrawdownState) (p : ValuePoint) :
    (drawdownStep st p).maxDrawdown =
      max st.maxDrawdown
        ((max st.peak p.value - p.value) / max st.peak p.value) := by
  unfold drawdownStep
  rcases lt_or_le st.peak p.value with h1 | h1
  · rw [if_pos h1]
    dsimp only
    have h0 : (p.value - p.value) / p.value = 0 := by rw [sub_self, zero_div]
    rw [max_eq_right h1.le, h0]
    rcases lt_or_le st.maxDrawdown 0 with h2 | h2
    · rw [if_pos h2]
      exact (max_eq_right h2.le).symm
    · rw [if_neg (not_lt.mpr h2)]
      exact (max_eq_left h2).symm
  · rw [if_neg (not_lt.mpr h1)]
    dsimp only
    rw [max_eq_left h1]
    rcases lt_or_le st.maxDrawdown ((st.peak - p.value) / st.peak) with h2 | h2
    · rw [if_pos h2]
      exact (max_eq_right h2.le).symm
    · rw [if_neg (not_lt.mpr h2)]
      exact (max_eq_left h2).symm

lemma foldl_drawdownStep_maxDrawdown (pts : List ValuePoint) :
    ∀ st : DrawdownState,
      (pts.foldl drawdownStep st).maxDrawdown =
        (drawdownsFrom st.peak pts).foldl max st.maxDrawdown := by
  induction pts with
  | nil => intro st; rfl
  | cons p rest ih =>
    intro st
    rw [List.foldl_cons, ih, drawdownStep_peak, drawdownStep_maxDrawdown,
      drawdownsFrom, List.foldl_cons]

/-- C8: the single scan of `calculateMaxDrawdown` reports as maximal
drawdown `100 ×` the maximum over the series of `(peak - value)/peak`
against the running peak; the series [100, 120, 90, 110] on dates 1..4
yields 25% with interval [2, 3]; and a later equal drawdown (the tie series
[100, 120, 90, 120, 90]) does not overwrite the first recorded maximum and
its interval. -/
theorem C8_max_drawdown :
    (∀ (v0 : ValuePoint) (rest : List ValuePoint), rest ≠ [] →
        (calculateMaxDrawdown (v0 :: rest)).1 =
          100 * (drawdownsFrom v0.value (v0 :: rest)).foldl max 0) ∧
    calculateMaxDrawdown [⟨1, 100⟩, ⟨2, 120⟩, ⟨3, 90⟩, ⟨4, 110⟩] =
      (25, some (2, 3)) ∧
    calculateMaxDrawdown [⟨1, 100⟩, ⟨2, 120⟩, ⟨3, 90⟩, ⟨4, 120⟩, ⟨5, 90⟩] =
      (25, some (2, 3)) := by
  refine ⟨?_, ?_, ?_⟩
  · intro v0 rest hne
    unfold calculateMaxDrawdown
    dsimp only
    rw [if_neg (by simp only [List.length_cons]; have := List.length_pos.mpr hne; omega)]
    dsimp only
    rw [foldl_drawdownStep_maxDrawdown]
    exact mul_comm _ _
  · norm_num [calculateMaxDrawdown, drawdownStep, List.foldl, Prod.ext_iff]
  · norm_num [calculateMaxDrawdown, drawdownStep, List.foldl, Prod.ext_iff]

/-- C8 (witness): the scan equals the declarative maximum on the concrete
series [100, 50], evaluating to 50%. -/
theorem C8_witness :
    (calculateMaxDrawdown [⟨1, 100⟩, ⟨2, 50⟩]).1 = 50 := by
  rw [C8_max_drawdown.1 ⟨1, 100⟩ [⟨2, 50⟩] (by simp)]
  norm_num [drawdownsFrom, List.foldl]

end FinRecorder

